import Mathlib

/-!
Verification of the Synchronization and Analytics Engine of the inventory
application: a shallow embedding of the analytics service
(calculateBasicSalesVelocity, getInventoryAnalytics, saveAIRecommendations),
the Shopify sync pipeline (syncProducts and its per-variant
updateInventoryAnalytics), and the AI bridge (aiService), together with
theorems settling the specification claims about them.

Conventions: JavaScript numbers are modelled as rationals, dates as
rational milliseconds since the epoch (what `new Date(x) - new Date(y)`
computes with), machine state as explicit parameters, and fallible code
as Except values.
-/

/-- One entry of historicalQuantities: {date, quantity}. -/
structure HistEntry where
  date : ℚ
  quantity : ℚ
deriving DecidableEq

/-- The {daily, weekly, monthly} sales-velocity record (the lastUpdated
timestamp the source also stores is irrelevant to every claim and omitted). -/
structure SalesVelocity where
  daily : ℚ
  weekly : ℚ
  monthly : ℚ
deriving DecidableEq

/-- Comparator used by the source sort `(a, b) => new Date(b.date) - new Date(a.date)`:
a precedes b when the date of a is at least the date of b (descending). -/
def dateGE (a b : HistEntry) : Prop := b.date ≤ a.date

instance : DecidableRel dateGE := fun a b => inferInstanceAs (Decidable (b.date ≤ a.date))

instance : IsTotal HistEntry dateGE := ⟨fun a b => le_total b.date a.date⟩

instance : IsTrans HistEntry dateGE := ⟨fun _ _ _ h1 h2 => le_trans h2 h1⟩

/-- JavaScript Array.prototype.sort with the descending-date comparator is a
stable sort; insertion sort with the reflexive descending relation is stable. -/
def sortByDateDesc (l : List HistEntry) : List HistEntry :=
  l.insertionSort dateGE

/-- Milliseconds per day: the divisor 1000 * 60 * 60 * 24 in the source. -/
def msPerDay : ℚ := 1000 * 60 * 60 * 24

/-- The loop of calculateBasicSalesVelocity over the sorted list: for each
consecutive pair (current, previous) with previous.quantity - current.quantity > 0,
accumulate the decrease and the day span (current.date - previous.date) / msPerDay.
Returns (totalDecrease, totalDays). -/
def velocitySums : List HistEntry → ℚ × ℚ
  | current :: previous :: rest =>
    let acc := velocitySums (previous :: rest)
    let decrease := previous.quantity - current.quantity
    if 0 < decrease then
      (acc.1 + decrease, acc.2 + (current.date - previous.date) / msPerDay)
    else
      acc
  | _ => (0, 0)

/-- Embedding of calculateBasicSalesVelocity (analyticsService). -/
def calculateBasicSalesVelocity (historicalQuantities : List HistEntry) : SalesVelocity :=
  if historicalQuantities.length < 2 then
    ⟨0, 0, 0⟩
  else
    let sorted := sortByDateDesc historicalQuantities
    let sums := velocitySums sorted
    let dailyVelocity := if 0 < sums.2 then sums.1 / sums.2 else 0
    ⟨dailyVelocity, dailyVelocity * 7, dailyVelocity * 30⟩

/-- The consecutive pairs (current, previous) of a list that show a decrease,
as the claim describes them: pairs of the walk whose older observation has the
larger quantity. -/
def decreasePairs (s : List HistEntry) : List (HistEntry × HistEntry) :=
  (s.zip s.tail).filter (fun cp => decide (0 < cp.2.quantity - cp.1.quantity))

/-- Sum of the decreases over the decrease pairs, per the claim. -/
def totalDecreaseSpec (s : List HistEntry) : ℚ :=
  ((decreasePairs s).map (fun cp => cp.2.quantity - cp.1.quantity)).sum

/-- Sum of the day spans over the decrease pairs, per the claim. -/
def totalDaysSpec (s : List HistEntry) : ℚ :=
  ((decreasePairs s).map (fun cp => (cp.1.date - cp.2.date) / msPerDay)).sum

/-- The sales-velocity output as the claim words it: sort descending, sum the
decreases and their day spans over consecutive pairs, divide when the day sum
is positive, scale by 7 and 30; all zero with fewer than two observations. -/
def specSalesVelocityClaim (h : List HistEntry) : SalesVelocity :=
  if h.length < 2 then
    ⟨0, 0, 0⟩
  else
    let s := sortByDateDesc h
    let d := if 0 < totalDaysSpec s then totalDecreaseSpec s / totalDaysSpec s else 0
    ⟨d, d * 7, d * 30⟩

/-- The concrete history of the claim: quantities 100, 90, 90, 70 at one-day
spacing (dates in milliseconds). -/
def exampleHistory : List HistEntry :=
  [⟨0, 100⟩, ⟨msPerDay, 90⟩, ⟨2 * msPerDay, 90⟩, ⟨3 * msPerDay, 70⟩]

/-- JavaScript `x || d` on an optional number: the default replaces both a
missing value and a present zero (zero is falsy). -/
def jsOr (v : Option ℚ) (d : ℚ) : ℚ :=
  match v with
  | some q => if q = 0 then d else q
  | none => d

/-- JavaScript `s || d` on an optional string: the default replaces both a
missing value and a present empty string (the empty string is falsy). -/
def jsOrStr (v : Option String) (d : String) : String :=
  match v with
  | some s => if s = "" then d else s
  | none => d

/-- The salesVelocity written by aiService _savePredictions:
daily = prediction.avgDailySales || 0, weekly = daily * 7, monthly = daily * 30. -/
def savePredictionsVelocity (avgDailySales : Option ℚ) : SalesVelocity :=
  let d := jsOr avgDailySales 0
  ⟨d, d * 7, d * 30⟩

/-- Stock status recomputed by the sync pipeline per variant
(updateInventoryAnalytics): quantity <= 0 gives "Out of Stock",
quantity <= 5 gives "Low Stock", otherwise "In Stock". The literal 5 is
hard-coded in the source; the threshold stored on the analytics record is
not consulted. -/
def stockStatusFor (inventoryQuantity : ℤ) : String :=
  if inventoryQuantity ≤ 0 then "Out of Stock"
  else if inventoryQuantity ≤ 5 then "Low Stock"
  else "In Stock"

/-- Modelled from the claim wording: status of quantity q against the
low-stock threshold t stored on the analytics record (q <= 0 out of stock,
0 < q <= t low, q > t in stock). -/
def specStockStatusClaim (q t : ℤ) : String :=
  if q ≤ 0 then "Out of Stock"
  else if q ≤ t then "Low Stock"
  else "In Stock"

/-- The restockRecommendations subdocument of the InventoryAnalytics schema. -/
structure RestockRec where
  recommendedQuantity : ℚ
  recommendedDate : Option ℚ
  confidence : ℚ
  reasoning : Option String
  lastUpdated : Option ℚ
deriving DecidableEq

/-- An InventoryAnalytics document (ids modelled as numbers). -/
structure AnalyticsRecord where
  shopifyProductId : Nat
  variantId : Nat
  title : String
  sku : String
  historicalQuantities : List HistEntry
  salesVelocity : Option SalesVelocity
  restockRecommendations : Option RestockRec
  lowStockThreshold : ℤ
  stockStatus : String
  lastUpdated : ℚ
deriving DecidableEq

/-- A variant subdocument of a Product document. -/
structure VariantDoc where
  shopifyVariantId : Nat
  title : String
  sku : String
  price : ℚ
  inventoryQuantity : ℤ
deriving DecidableEq

/-- A Product document. -/
structure ProductDoc where
  shopifyId : Nat
  title : String
  description : String
  vendor : String
  productType : String
  tags : List String
  variants : List VariantDoc
  lastUpdated : ℚ
deriving DecidableEq

/-- The join performed inside the predicted-out-of-stock filter of
getInventoryAnalytics: find the product by shopifyProductId, then the
variant by shopifyVariantId; either miss excludes the record. -/
def findVariant (products : List ProductDoc) (item : AnalyticsRecord) : Option VariantDoc :=
  match products.find? (fun p => p.shopifyId == item.shopifyProductId) with
  | none => none
  | some product => product.variants.find? (fun v => v.shopifyVariantId == item.variantId)

/-- The filter predicate of the predicted-out-of-stock computation in
getInventoryAnalytics, step for step: a record without a truthy
salesVelocity.daily is rejected, the product and variant are joined (a miss
rejects), currentStock is the variant quantity (the source applies || 0,
identity on stored numbers), dailySales <= 0 rejects, and the record counts
when currentStock / dailySales <= 7. -/
def predictedOutOfStockPred (products : List ProductDoc) (item : AnalyticsRecord) : Bool :=
  match item.salesVelocity with
  | none => false
  | some sv =>
    if sv.daily = 0 then false
    else
      match findVariant products item with
      | none => false
      | some variant =>
        let currentStock : ℚ := (variant.inventoryQuantity : ℚ)
        let dailySales := sv.daily
        if dailySales ≤ 0 then false
        else decide (currentStock / dailySales ≤ 7)

/-- The predictedOutOfStock count returned by getInventoryAnalytics. -/
def predictedOutOfStockCount (products : List ProductDoc)
    (analytics : List AnalyticsRecord) : Nat :=
  (analytics.filter (predictedOutOfStockPred products)).length

/-- Modelled from the claim wording: a record counts exactly when it joins to
a variant, its daily velocity is strictly positive, and current stock divided
by daily velocity is at most 7. -/
def specPredictedPredClaim (products : List ProductDoc) (item : AnalyticsRecord) : Bool :=
  match item.salesVelocity, findVariant products item with
  | some sv, some variant =>
    decide (0 < sv.daily ∧ (variant.inventoryQuantity : ℚ) / sv.daily ≤ 7)
  | _, _ => false

/-- The low-stock rollup of getInventoryAnalytics: it filters analytics
records on stockStatus equal to the string "low", although the schema enum
stores "In Stock", "Low Stock" and "Out of Stock". -/
def lowStockCountCode (analytics : List AnalyticsRecord) : Nat :=
  (analytics.filter (fun item => item.stockStatus == "low")).length

/-- A schema-valid analytics record whose stockStatus is "Low Stock". -/
def rLowSample : AnalyticsRecord :=
  ⟨1, 11, "Tee", "SKU-1", [], none, none, 5, "Low Stock", 0⟩

/-- A schema-valid analytics record whose stockStatus is "In Stock". -/
def rInSample : AnalyticsRecord :=
  ⟨2, 21, "Mug", "SKU-2", [], none, none, 5, "In Stock", 0⟩

/-- Product with one variant holding 14 units, for the C7 boundary scenario. -/
def p14Sample : ProductDoc :=
  ⟨1, "Tee", "", "V", "Apparel", [], [⟨11, "Default", "SKU-1", 10, 14⟩], 0⟩

/-- Product with one variant holding 20 units, for the C7 boundary scenario. -/
def p20Sample : ProductDoc :=
  ⟨2, "Mug", "", "V", "Kitchen", [], [⟨21, "Default", "SKU-2", 10, 20⟩], 0⟩

/-- Analytics record for the 14-unit variant with daily velocity 2. -/
def a14Sample : AnalyticsRecord :=
  ⟨1, 11, "Tee", "SKU-1", [], some ⟨2, 14, 60⟩, none, 5, "In Stock", 0⟩

/-- Analytics record for the 20-unit variant with daily velocity 2. -/
def a20Sample : AnalyticsRecord :=
  ⟨2, 21, "Mug", "SKU-2", [], some ⟨2, 14, 60⟩, none, 5, "In Stock", 0⟩

/-- An item of the flat per-variant list _prepareInventoryData builds; only
its presence or absence matters to the failure-handling claims, so its
payload is reduced to the variant id. -/
structure PreparedItem where
  id : Nat
deriving DecidableEq

/-- A prediction object of the external restock response (all fields
optional, as the source defends each with a default). -/
structure Prediction where
  productId : Option Nat
  avgDailySales : Option ℚ
  recommendedOrderQuantity : Option ℚ
  restockDate : Option ℚ
  daysUntilStockout : Option ℚ
  confidenceScore : Option ℚ
  restockUrgency : Option String
deriving DecidableEq

/-- Body of the restock-predictions response; the predictions field can be
missing (malformed response). -/
structure LLMRestockResponse where
  predictions : Option (List Prediction)

/-- Body of the simulate response; the results field can be missing. -/
structure SimResponse where
  results : Option (List (String × ℚ))
deriving DecidableEq

/-- One step of aiService _savePredictions: look the analytics record up by
variantId (the productId field of the prediction); a missing id or a missing
record is skipped, otherwise salesVelocity and restockRecommendations are
overwritten on the first matching record and saved. The written
recommendation carries no reasoning and no subdocument timestamp (the source
sets fields the schema does not keep instead). -/
def savePrediction (now : ℚ) (db : List AnalyticsRecord) (p : Prediction) :
    List AnalyticsRecord :=
  match p.productId with
  | none => db
  | some vid =>
    match db with
    | [] => []
    | a :: rest =>
      if a.variantId == vid then
        { a with
          salesVelocity := some (savePredictionsVelocity p.avgDailySales),
          restockRecommendations :=
            some ⟨jsOr p.recommendedOrderQuantity 0, p.restockDate,
              jsOr p.confidenceScore 0, none, none⟩,
          lastUpdated := now } :: rest
      else
        a :: savePrediction now rest p

/-- aiService _savePredictions over the whole predictions list. -/
def savePredictions (now : ℚ) (predictions : List Prediction)
    (db : List AnalyticsRecord) : List AnalyticsRecord :=
  predictions.foldl (savePrediction now) db

/-- aiService getRestockRecommendations, with the two external interactions
as inputs: the prepared inventory data (from _prepareInventoryData) and the
outcome of the axios call (an exception models an unreachable or timed-out
server). Returns the predictions and the analytics collection after any
persistence. -/
def getRestockRecommendations (inventoryData : List PreparedItem)
    (response : Except String LLMRestockResponse) (now : ℚ)
    (db : List AnalyticsRecord) : List Prediction × List AnalyticsRecord :=
  if inventoryData.isEmpty then ([], db)
  else
    match response with
    | .error _ => ([], db)
    | .ok r =>
      match r.predictions with
      | none => ([], db)
      | some predictions => (predictions, savePredictions now predictions db)

/-- aiService runInventorySimulations: the scenario parameters play no role
in failure handling; the axios outcome is an input. Returns the response body
on success and an empty results object on any failure; it never writes to the
analytics collection. -/
def runInventorySimulations (inventoryData : List PreparedItem)
    (response : Except String SimResponse) : SimResponse :=
  if inventoryData.isEmpty then { results := some [] }
  else
    match response with
    | .error _ => { results := some [] }
    | .ok r =>
      match r.results with
      | none => { results := some [] }
      | some _ => r

/-- The recommendation payload of an entry passed to saveAIRecommendations. -/
structure RecBody where
  quantity : ℚ
  confidence : Option ℚ
  reasoning : Option String
deriving DecidableEq

/-- An entry passed to saveAIRecommendations; the validity test requires the
three fields to be truthy. -/
structure RecInput where
  productId : Option Nat
  variantId : Option Nat
  recommendation : Option RecBody
deriving DecidableEq

/-- The restockRecommendations subdocument written by saveAIRecommendations:
quantity from the entry, both dates set to now, confidence defaulted to 0.7
and reasoning to a fixed text when falsy. -/
def mkSavedRec (body : RecBody) (now : ℚ) : RestockRec :=
  ⟨body.quantity, some now, jsOr body.confidence (7 / 10),
    some (jsOrStr body.reasoning "AI-generated recommendation"), some now⟩

/-- InventoryAnalytics.findOneAndUpdate on {shopifyProductId, variantId} with
a $set of restockRecommendations and {new: true}, as saveAIRecommendations
calls it: the first matching record is updated and returned; without a match
the collection is unchanged and none is returned (no upsert). -/
def findOneAndUpdateRec (db : List AnalyticsRecord) (pid vid : Nat) (body : RecBody)
    (now : ℚ) : Option AnalyticsRecord × List AnalyticsRecord :=
  match db with
  | [] => (none, [])
  | a :: rest =>
    if a.shopifyProductId == pid && a.variantId == vid then
      let a2 := { a with restockRecommendations := some (mkSavedRec body now) }
      (some a2, a2 :: rest)
    else
      let r := findOneAndUpdateRec rest pid vid body now
      (r.1, a :: r.2)

/-- An input entry that passes the validity test of saveAIRecommendations and
matches an existing record of the collection. -/
def validMatched (db : List AnalyticsRecord) (r : RecInput) : Bool :=
  match r.productId, r.variantId, r.recommendation with
  | some pid, some vid, some _ =>
    (db.find? (fun a => a.shopifyProductId == pid && a.variantId == vid)).isSome
  | _, _, _ => false

/-- The loop of saveAIRecommendations. The body declares
`const updated = await InventoryAnalytics.findOneAndUpdate(...)`, shadowing
the outer counter, and the subsequent `updated++` on that constant throws a
TypeError as soon as the lookup returns a document; the call-level catch
turns the throw into a failure result. The error value carries the collection
at the moment of the throw: the update has already been persisted. -/
def saveLoop (now : ℚ) : List RecInput → List AnalyticsRecord →
    Except (List AnalyticsRecord) (List AnalyticsRecord)
  | [], db => .ok db
  | r :: rest, db =>
    match r.productId, r.variantId, r.recommendation with
    | some pid, some vid, some body =>
      match findOneAndUpdateRec db pid vid body now with
      | (some _, db2) => .error db2
      | (none, db2) => saveLoop now rest db2
    | _, _, _ => saveLoop now rest db

/-- Result shape of saveAIRecommendations: an updated count only on the
success path; the thrown path reports {success: false} with an error
message. -/
structure SaveResult where
  success : Bool
  updated : Option Nat
deriving DecidableEq

/-- Embedding of saveAIRecommendations. The outer counter is never
incremented on any path, since the only increment targets the shadowing
constant and throws, so the success result always reports 0. -/
def saveAIRecommendations (recommendations : List RecInput) (now : ℚ)
    (db : List AnalyticsRecord) : SaveResult × List AnalyticsRecord :=
  match saveLoop now recommendations db with
  | .ok db2 => (⟨true, some 0⟩, db2)
  | .error db2 => (⟨false, none⟩, db2)

/-- A recommendation payload for the concrete C10 instances. -/
def rBodySample : RecBody := ⟨40, none, none⟩

/-- A valid entry matching rLowSample (product 1, variant 11). -/
def rGoodSample : RecInput := ⟨some 1, some 11, some rBodySample⟩

/-- A valid entry matching no record of the sample collection. -/
def rBadSample : RecInput := ⟨some 9, some 99, some rBodySample⟩

/-- A raw Shopify variant as delivered by the platform listing. -/
structure ExtVariant where
  id : Nat
  title : String
  sku : String
  price : ℚ
  inventory_quantity : ℤ
  inventory_item_id : Nat
deriving DecidableEq

/-- A raw Shopify product. The tags field carries the comma-joined string; a
missing (null) tags value makes the normalization throw, which models the
malformed-record case. -/
structure ExtProduct where
  id : Nat
  title : String
  body_html : String
  vendor : String
  product_type : String
  tags : Option String
  variants : List ExtVariant
deriving DecidableEq

/-- Page size, fixed at 250 in the source. -/
def pageSize : Nat := 250

/-- One platform request: the records with id strictly greater than the
cursor, in id order, capped at the page size. -/
def fetchPage (dataset : List ExtProduct) (since : Option Nat) : List ExtProduct :=
  (match since with
   | none => dataset
   | some s => dataset.filter (fun p => s < p.id)).take pageSize

/-- The pagination loop of syncProducts: fetch a page, append it, and while
the page length equals the page size advance the cursor to the last-seen id
and continue. Returns the number of page requests and the accumulated
records. The fuel argument only bounds the recursion; syncProducts passes
enough for any dataset. -/
def fetchAll (dataset : List ExtProduct) : Option Nat → Nat → Nat × List ExtProduct
  | _, 0 => (0, [])
  | since, fuel + 1 =>
    let page := fetchPage dataset since
    if page.length = pageSize then
      match page.getLast? with
      | some last =>
        let rest := fetchAll dataset (some last.id) fuel
        (rest.1 + 1, page ++ rest.2)
      | none => (1, page)
    else
      (1, page)

/-- Normalization of one raw variant into the stored variant shape. -/
def normVariant (v : ExtVariant) : VariantDoc :=
  ⟨v.id, v.title, v.sku, v.price, v.inventory_quantity⟩

/-- Normalization of a raw product into the Product document the upsert
writes. Splitting a missing tags string throws in the source (a TypeError on
null), modelled as the error case. -/
def normalizeProduct (p : ExtProduct) (now : ℚ) : Except String ProductDoc :=
  match p.tags with
  | none => .error "TypeError: tags is null"
  | some ts =>
    .ok ⟨p.id, p.title, p.body_html, p.vendor, p.product_type,
      (ts.splitOn ",").map (fun t => t.trim), p.variants.map normVariant, now⟩

/-- The normalized document of a well-formed raw product (total form used to
state what the pipeline writes). -/
def normDoc (p : ExtProduct) (now : ℚ) : ProductDoc :=
  ⟨p.id, p.title, p.body_html, p.vendor, p.product_type,
    ((p.tags.getD "").splitOn ",").map (fun t => t.trim), p.variants.map normVariant, now⟩

/-- The persistent state the product sync touches: the Product collection
keyed by shopifyId and the InventoryAnalytics collection keyed by the
(shopifyProductId, variantId) pair. -/
structure DB where
  products : Nat → Option ProductDoc
  analytics : Nat × Nat → Option AnalyticsRecord

/-- The empty repository. -/
def emptyDB : DB := ⟨fun _ => none, fun _ => none⟩

/-- Upsert of a Product document by its external id. -/
def setProduct (db : DB) (pid : Nat) (doc : ProductDoc) : DB :=
  ⟨fun k => if k = pid then some doc else db.products k, db.analytics⟩

/-- Upsert of an InventoryAnalytics document by its key. -/
def setAnalytics (db : DB) (key : Nat × Nat) (a : AnalyticsRecord) : DB :=
  ⟨db.products, fun k => if k = key then some a else db.analytics k⟩

/-- updateInventoryAnalytics of the Shopify service, as one upsert on the
(product, variant) key: $setOnInsert of the identity fields and threshold 5,
$push of the new {date: now, quantity} observation, and $set of stockStatus
(against the constant 5) and lastUpdated. -/
def updateAnalyticsDoc (doc : ProductDoc) (v : VariantDoc) (now : ℚ)
    (old : Option AnalyticsRecord) : AnalyticsRecord :=
  match old with
  | some a =>
    { a with
      historicalQuantities := a.historicalQuantities ++ [⟨now, (v.inventoryQuantity : ℚ)⟩],
      stockStatus := stockStatusFor v.inventoryQuantity,
      lastUpdated := now }
  | none =>
    ⟨doc.shopifyId, v.shopifyVariantId, doc.title, v.sku,
      [⟨now, (v.inventoryQuantity : ℚ)⟩], none, none, 5,
      stockStatusFor v.inventoryQuantity, now⟩

/-- The per-variant loop after a product upsert: update analytics for every
variant of the saved product in order. -/
def applyVariants (doc : ProductDoc) (now : ℚ) : List VariantDoc → DB → DB
  | [], db => db
  | v :: vs, db =>
    applyVariants doc now vs
      (setAnalytics db (doc.shopifyId, v.shopifyVariantId)
        (updateAnalyticsDoc doc v now (db.analytics (doc.shopifyId, v.shopifyVariantId))))

/-- Processing of one normalized product: upsert the document, then update
analytics for each of its variants. -/
def applyDoc (now : ℚ) (doc : ProductDoc) (db : DB) : DB :=
  applyVariants doc now doc.variants (setProduct db doc.shopifyId doc)

/-- State change of processing one well-formed raw product. -/
def applyOk (now : ℚ) (db : DB) (p : ExtProduct) : DB :=
  applyDoc now (normDoc p now) db

/-- State after processing a list of well-formed raw products in order. -/
def applyAll (now : ℚ) (l : List ExtProduct) (db : DB) : DB :=
  l.foldl (applyOk now) db

/-- The per-record loop of syncProducts: normalize, upsert the product, and
update analytics per variant. Returns the number of records fully processed,
the state after every performed write, and the first thrown error when one
occurs; the loop has no per-record handler, so a throw stops the walk while
the writes already made persist. -/
def processProducts (now : ℚ) : List ExtProduct → DB → Nat × DB × Option String
  | [], db => (0, db, none)
  | p :: rest, db =>
    match normalizeProduct p now with
    | .error e => (0, db, some e)
    | .ok doc =>
      let r := processProducts now rest (applyDoc now doc db)
      (r.1 + 1, r.2.1, r.2.2)

/-- Outcome of one syncProducts call: pages requested, records fully
upserted, the returned count or the thrown error, and the repository
state. -/
structure SyncOutcome where
  requests : Nat
  upserts : Nat
  result : Except String Nat
  db : DB

/-- Embedding of syncProducts (Shopify service): paginate everything, then
process each accumulated record; an error reaching the call-level catch is
rethrown as an ApiError, modelled by the error result. -/
def syncProducts (dataset : List ExtProduct) (now : ℚ) (db : DB) : SyncOutcome :=
  let fetched := fetchAll dataset none (dataset.length + 1)
  let processed := processProducts now fetched.2 db
  match processed.2.2 with
  | some e => ⟨fetched.1, processed.1, .error e, processed.2.1⟩
  | none => ⟨fetched.1, processed.1, .ok processed.1, processed.2.1⟩

/-- The dataset-derived content of a Product document: every stored field
except the lastUpdated timestamp. -/
def productCore (d : ProductDoc) :
    Nat × String × String × String × String × List String × List VariantDoc :=
  (d.shopifyId, d.title, d.description, d.vendor, d.productType, d.tags, d.variants)

/-- What running the sync twice over an unchanged dataset guarantees: the
Product documents agree on every dataset-derived field (only lastUpdated
moves), and the second run appends exactly the one new observation to every
synced variant's history, even when the two runs carry equal timestamps. -/
def syncTwiceProperty (dataset : List ExtProduct) (t1 t2 : ℚ) (db : DB) : Prop :=
  (∀ pid : Nat,
    Option.map productCore ((syncProducts dataset t2 (syncProducts dataset t1 db).db).db.products pid)
      = Option.map productCore ((syncProducts dataset t1 db).db.products pid))
  ∧ (∀ p ∈ dataset, ∀ v ∈ p.variants,
    ∃ a1, (syncProducts dataset t1 db).db.analytics (p.id, v.id) = some a1
      ∧ ∃ a2, (syncProducts dataset t2 (syncProducts dataset t1 db).db).db.analytics (p.id, v.id)
          = some a2
        ∧ a2.historicalQuantities
            = a1.historicalQuantities ++ [⟨t2, (v.inventory_quantity : ℚ)⟩]
        ∧ a2.historicalQuantities.length = a1.historicalQuantities.length + 1)

/-- A well-formed one-product dataset for the concrete C4 and C2 runs. -/
def prodSample : ExtProduct :=
  ⟨1, "A Shirt", "desc", "V", "Apparel", some "summer, tee", [⟨11, "d", "s", 5, 3, 111⟩]⟩

/-- The singleton dataset holding prodSample. -/
def dataset1 : List ExtProduct := [prodSample]

/-- A well-formed raw product with the given id and no variants. -/
def mkExt (i : Nat) : ExtProduct := ⟨i, "", "", "", "", some "", []⟩

/-- The first 25 records of the C5 page, all well formed. -/
def good25 : List ExtProduct := (List.range 25).map mkExt

/-- The malformed record of the C5 page: its tags field is null. -/
def bad25 : ExtProduct := ⟨25, "", "", "", "", none, []⟩

/-- The 24 records after the malformed one in the C5 page. -/
def tail24 : List ExtProduct := (List.range 24).map (fun i => mkExt (26 + i))

/-- A 50-record page whose 26th record (index 25) is malformed. -/
def page50 : List ExtProduct := good25 ++ bad25 :: tail24

/-- A 250-record dataset with ascending ids, for the C2 boundary. -/
def dataset250 : List ExtProduct := (List.range 250).map mkExt

theorem velocitySums_eq (s : List HistEntry) :
    velocitySums s = (totalDecreaseSpec s, totalDaysSpec s) := by
  match s with
  | [] => rfl
  | [a] => rfl
  | a :: b :: t =>
    have ih := velocitySums_eq (b :: t)
    simp only [velocitySums, ih]
    simp only [totalDecreaseSpec, totalDaysSpec, decreasePairs, List.zip_cons_cons,
      List.tail_cons, List.filter_cons]
    by_cases hd : 0 < b.quantity - a.quantity
    · simp [hd, add_comm]
    · simp [hd]

/-- C1: the sales-velocity computation sorts the history descending by date,
walks consecutive pairs accumulating only decreases and their day spans,
divides when the day total is positive and returns zero otherwise, returns
all zeroes for fewer than two observations, and on the concrete history
[100, 90, 90, 70] at one-day spacing yields daily 15, weekly 105, monthly 450. -/
theorem claim_C1_sales_velocity :
    (∀ h : List HistEntry,
      List.Sorted dateGE (sortByDateDesc h) ∧ (sortByDateDesc h).Perm h)
    ∧ (∀ h : List HistEntry, calculateBasicSalesVelocity h = specSalesVelocityClaim h)
    ∧ calculateBasicSalesVelocity exampleHistory = ⟨15, 105, 450⟩ := by
  refine ⟨fun h => ⟨List.sorted_insertionSort dateGE h, List.perm_insertionSort dateGE h⟩,
    fun h => ?_, ?_⟩
  · simp only [calculateBasicSalesVelocity, specSalesVelocityClaim, velocitySums_eq]
  · have hsort : sortByDateDesc exampleHistory =
        [⟨3 * msPerDay, 70⟩, ⟨2 * msPerDay, 90⟩, ⟨msPerDay, 90⟩, ⟨0, 100⟩] := by
      simp only [sortByDateDesc, exampleHistory, List.insertionSort, List.orderedInsert]
      norm_num [dateGE, msPerDay]
    have hlen : ¬ exampleHistory.length < 2 := by simp [exampleHistory]
    simp only [calculateBasicSalesVelocity, hlen, if_false, hsort]
    norm_num [velocitySums, msPerDay]

/-- C9: every computed sales-velocity output, from both the analytics service
computation and the aiService prediction save, has weekly equal to daily * 7
and monthly equal to daily * 30 exactly. -/
theorem claim_C9_velocity_scaling :
    (∀ h : List HistEntry,
      (calculateBasicSalesVelocity h).weekly = (calculateBasicSalesVelocity h).daily * 7
      ∧ (calculateBasicSalesVelocity h).monthly = (calculateBasicSalesVelocity h).daily * 30)
    ∧ (∀ p : Option ℚ,
      (savePredictionsVelocity p).weekly = (savePredictionsVelocity p).daily * 7
      ∧ (savePredictionsVelocity p).monthly = (savePredictionsVelocity p).daily * 30) := by
  constructor
  · intro h
    simp only [calculateBasicSalesVelocity]
    split
    · exact ⟨by norm_num, by norm_num⟩
    · exact ⟨rfl, rfl⟩
  · intro p
    exact ⟨rfl, rfl⟩

theorem predictedPred_eq_spec (products : List ProductDoc) (item : AnalyticsRecord) :
    predictedOutOfStockPred products item = specPredictedPredClaim products item := by
  unfold predictedOutOfStockPred specPredictedPredClaim
  cases item.salesVelocity with
  | none => rfl
  | some sv =>
    by_cases h0 : sv.daily = 0
    · cases findVariant products item with
      | none => simp [h0]
      | some variant => norm_num [h0]
    · cases findVariant products item with
      | none => simp [h0]
      | some variant =>
        by_cases hle : sv.daily ≤ 0
        · simp [h0, hle, not_lt.mpr hle]
        · have hpos : 0 < sv.daily := not_le.mp hle
          simp [h0, hle, hpos]

/-- C7: the predicted-out-of-stock count equals the number of analytics
records that join to a variant, have strictly positive daily velocity, and
have current stock over daily velocity at most 7; a 14-unit variant selling 2
a day is counted, a 20-unit one is not, and together they count as 1. -/
theorem claim_C7_predicted_out_of_stock :
    (∀ (products : List ProductDoc) (analytics : List AnalyticsRecord),
      predictedOutOfStockCount products analytics =
        (analytics.filter (specPredictedPredClaim products)).length)
    ∧ predictedOutOfStockPred [p14Sample, p20Sample] a14Sample = true
    ∧ predictedOutOfStockPred [p14Sample, p20Sample] a20Sample = false
    ∧ predictedOutOfStockCount [p14Sample, p20Sample] [a14Sample, a20Sample] = 1 := by
  have h14 : predictedOutOfStockPred [p14Sample, p20Sample] a14Sample = true := by
    norm_num [predictedOutOfStockPred,
      show a14Sample.salesVelocity = some ⟨2, 14, 60⟩ from rfl,
      show findVariant [p14Sample, p20Sample] a14Sample =
        some ⟨11, "Default", "SKU-1", 10, 14⟩ from rfl]
  have h20 : predictedOutOfStockPred [p14Sample, p20Sample] a20Sample = false := by
    norm_num [predictedOutOfStockPred,
      show a20Sample.salesVelocity = some ⟨2, 14, 60⟩ from rfl,
      show findVariant [p14Sample, p20Sample] a20Sample =
        some ⟨21, "Default", "SKU-2", 10, 20⟩ from rfl]
  refine ⟨fun ps as => ?_, h14, h20, ?_⟩
  · unfold predictedOutOfStockCount
    congr 1
    exact List.filter_congr (fun item _ => predictedPred_eq_spec ps item)
  · simp [predictedOutOfStockCount, List.filter_cons, h14, h20]

/-- C3 counterexample: for an analytics record with lowStockThreshold 10 and a
variant holding 10 units, the sync pipeline computes "In Stock" while the
claim requires LowStock for 0 < q <= t. -/
theorem claim_C3_counterexample :
    stockStatusFor 10 = "In Stock" ∧ specStockStatusClaim 10 10 = "Low Stock"
    ∧ stockStatusFor 10 ≠ specStockStatusClaim 10 10 := by
  exact ⟨rfl, rfl, by decide⟩

/-- C3 amended: the per-variant stock status recomputed by the sync pipeline
uses the fixed constant 5 rather than the threshold on the analytics record,
so it matches the claimed classification exactly at t = 5: q <= 0 out of
stock, 0 < q <= 5 low, q > 5 in stock, with the boundaries q = 0, q = 5 and
q = 6. -/
theorem claim_C3_amended_stock_status :
    (∀ q : ℤ, stockStatusFor q = specStockStatusClaim q 5)
    ∧ stockStatusFor 0 = "Out of Stock"
    ∧ stockStatusFor 5 = "Low Stock"
    ∧ stockStatusFor 6 = "In Stock" := by
  refine ⟨fun q => rfl, by decide, by decide, by decide⟩

/-- C8: the low-stock rollup of getInventoryAnalytics compares stockStatus
with the string "low", which no schema-valid record carries, so it returns 0
even when a record has stockStatus "Low Stock"; one such record should count
as 1 under the claim. -/
theorem claim_C8_low_stock_bug :
    (∀ analytics : List AnalyticsRecord,
      (∀ i ∈ analytics, i.stockStatus = "In Stock" ∨ i.stockStatus = "Low Stock"
        ∨ i.stockStatus = "Out of Stock") →
      lowStockCountCode analytics = 0)
    ∧ lowStockCountCode [rLowSample] = 0
    ∧ ([rLowSample].filter (fun i => i.stockStatus == "Low Stock")).length = 1 := by
  refine ⟨fun analytics henum => ?_, by decide, by decide⟩
  unfold lowStockCountCode
  rw [List.length_eq_zero, List.filter_eq_nil_iff]
  intro a ha
  rcases henum a ha with h | h | h <;> simp [h]

/-- Witness for C8: a concrete schema-valid collection on which the rollup
evaluates to 0. -/
theorem claim_C8_witness :
    (∀ i ∈ [rLowSample, rInSample], i.stockStatus = "In Stock"
      ∨ i.stockStatus = "Low Stock" ∨ i.stockStatus = "Out of Stock")
    ∧ lowStockCountCode [rLowSample, rInSample] = 0 :=
  ⟨by decide, claim_C8_low_stock_bug.1 _ (by decide)⟩

/-- C6: every failing interaction with the external prediction service (a
thrown request, covering unreachable and timed-out servers, or a response
missing the predictions/results field) makes getRestockRecommendations
return an empty list with the analytics collection untouched and makes
runInventorySimulations return empty results; no error marker is written
over a stored recommendation. -/
theorem claim_C6_bridge_failures :
    (∀ (items : List PreparedItem) (e : String) (now : ℚ) (db : List AnalyticsRecord),
      getRestockRecommendations items (.error e) now db = ([], db))
    ∧ (∀ (items : List PreparedItem) (r : LLMRestockResponse) (now : ℚ)
        (db : List AnalyticsRecord), r.predictions = none →
      getRestockRecommendations items (.ok r) now db = ([], db))
    ∧ (∀ (items : List PreparedItem) (e : String),
      runInventorySimulations items (.error e) = { results := some [] })
    ∧ (∀ (items : List PreparedItem) (r : SimResponse), r.results = none →
      runInventorySimulations items (.ok r) = { results := some [] }) := by
  refine ⟨fun items e now db => ?_, fun items r now db hr => ?_,
    fun items e => ?_, fun items r hr => ?_⟩ <;>
    by_cases h : items.isEmpty <;>
    simp [getRestockRecommendations, runInventorySimulations, h] <;>
    rw [hr]

/-- Witness for C6: concrete failing interactions with a nonempty item list
and a nonempty analytics collection. -/
theorem claim_C6_witness :
    ((⟨none⟩ : LLMRestockResponse).predictions = none
      ∧ getRestockRecommendations [⟨1⟩] (.ok ⟨none⟩) 0 [rLowSample] = ([], [rLowSample]))
    ∧ ((⟨none⟩ : SimResponse).results = none
      ∧ runInventorySimulations [⟨1⟩] (.ok ⟨none⟩) = { results := some [] })
    ∧ getRestockRecommendations [⟨1⟩] (.error "connect ECONNREFUSED") 0 [rLowSample]
      = ([], [rLowSample]) :=
  ⟨⟨rfl, claim_C6_bridge_failures.2.1 _ _ _ _ rfl⟩,
    ⟨rfl, claim_C6_bridge_failures.2.2.2 _ _ rfl⟩,
    claim_C6_bridge_failures.1 _ _ _ _⟩

theorem findOneAndUpdateRec_none (db : List AnalyticsRecord) (pid vid : Nat)
    (body : RecBody) (now : ℚ)
    (h : db.find? (fun a => a.shopifyProductId == pid && a.variantId == vid) = none) :
    findOneAndUpdateRec db pid vid body now = (none, db) := by
  induction db with
  | nil => rfl
  | cons a rest ih =>
    simp only [List.find?_cons] at h
    by_cases hpred : (a.shopifyProductId == pid && a.variantId == vid) = true
    · rw [hpred] at h
      simp at h
    · have hf : (a.shopifyProductId == pid && a.variantId == vid) = false := by
        simpa using hpred
      rw [hf] at h
      have h2 : rest.find? (fun a => a.shopifyProductId == pid && a.variantId == vid)
          = none := h
      simp only [findOneAndUpdateRec]
      rw [if_neg hpred]
      simp [ih h2]

theorem findOneAndUpdateRec_fst_isSome (db : List AnalyticsRecord) (pid vid : Nat)
    (body : RecBody) (now : ℚ) :
    (findOneAndUpdateRec db pid vid body now).1.isSome =
      (db.find? (fun a => a.shopifyProductId == pid && a.variantId == vid)).isSome := by
  induction db with
  | nil => rfl
  | cons a rest ih =>
    simp only [List.find?_cons]
    by_cases hpred : (a.shopifyProductId == pid && a.variantId == vid) = true
    · rw [hpred]
      simp only [findOneAndUpdateRec]
      rw [if_pos hpred]
      rfl
    · have hf : (a.shopifyProductId == pid && a.variantId == vid) = false := by
        simpa using hpred
      rw [hf]
      simp only [findOneAndUpdateRec]
      rw [if_neg hpred]
      simpa using ih

theorem saveLoop_skip (now : ℚ) (db : List AnalyticsRecord) :
    ∀ pre : List RecInput, (∀ x ∈ pre, validMatched db x = false) →
    ∀ rest : List RecInput, saveLoop now (pre ++ rest) db = saveLoop now rest db := by
  intro pre
  induction pre with
  | nil => intro _ rest; rfl
  | cons x pre ih =>
    intro hall rest
    have hx := hall x (by simp)
    have hrest : ∀ y ∈ pre, validMatched db y = false :=
      fun y hy => hall y (List.mem_cons_of_mem x hy)
    rw [List.cons_append]
    rcases hp : x.productId with _ | pid
    · simp only [saveLoop, hp]
      exact ih hrest rest
    · rcases hv : x.variantId with _ | vid
      · simp only [saveLoop, hp, hv]
        exact ih hrest rest
      · rcases hr : x.recommendation with _ | body
        · simp only [saveLoop, hp, hv, hr]
          exact ih hrest rest
        · unfold validMatched at hx
          rw [hp, hv, hr] at hx
          have hx2 : (db.find? (fun a =>
              a.shopifyProductId == pid && a.variantId == vid)).isSome = false := hx
          have hfind : db.find? (fun a => a.shopifyProductId == pid && a.variantId == vid)
              = none := by
            cases hf : db.find? (fun a => a.shopifyProductId == pid && a.variantId == vid)
            · rfl
            · rw [hf] at hx2
              simp at hx2
          simp only [saveLoop, hp, hv, hr,
            findOneAndUpdateRec_none db pid vid body now hfind]
          exact ih hrest rest

/-- C10: whenever the input list has an entry with all three fields present
that matches an existing record, saveAIRecommendations reports failure, yet
the first such entry was already persisted by the lookup-and-update before
the throw (the returned collection is the updated one); only when no entry is
both valid and matched does it report success with an updated count of 0 and
the collection unchanged. -/
theorem claim_C10_save_recommendations :
    (∀ (now : ℚ) (db : List AnalyticsRecord) (pre rest : List RecInput)
        (r : RecInput) (pid vid : Nat) (body : RecBody),
      (∀ x ∈ pre, validMatched db x = false) →
      r.productId = some pid → r.variantId = some vid → r.recommendation = some body →
      validMatched db r = true →
      saveAIRecommendations (pre ++ r :: rest) now db =
        (⟨false, none⟩, (findOneAndUpdateRec db pid vid body now).2))
    ∧ (∀ (now : ℚ) (db : List AnalyticsRecord) (recs : List RecInput),
      (∀ x ∈ recs, validMatched db x = false) →
      saveAIRecommendations recs now db = (⟨true, some 0⟩, db)) := by
  constructor
  · intro now db pre rest r pid vid body hpre hp hv hr hmatch
    unfold validMatched at hmatch
    rw [hp, hv, hr] at hmatch
    have hm2 : (db.find? (fun a =>
        a.shopifyProductId == pid && a.variantId == vid)).isSome = true := hmatch
    rw [← findOneAndUpdateRec_fst_isSome db pid vid body now] at hm2
    unfold saveAIRecommendations
    rw [saveLoop_skip now db pre hpre (r :: rest)]
    simp only [saveLoop, hp, hv, hr]
    rcases hrec : findOneAndUpdateRec db pid vid body now with ⟨fst, snd⟩
    rw [hrec] at hm2
    cases fst with
    | none => simp at hm2
    | some a => rfl
  · intro now db recs hall
    unfold saveAIRecommendations
    have h2 := saveLoop_skip now db recs hall []
    rw [List.append_nil] at h2
    rw [h2]
    rfl

/-- Witness for C10: on a collection holding the (1, 11) record, a matching
entry makes the call fail after persisting, and a valid unmatched entry makes
it succeed with 0 updates. -/
theorem claim_C10_witness :
    (rGoodSample.productId = some 1 ∧ rGoodSample.variantId = some 11
      ∧ rGoodSample.recommendation = some rBodySample
      ∧ validMatched [rLowSample] rGoodSample = true
      ∧ saveAIRecommendations [rGoodSample] 0 [rLowSample] =
        (⟨false, none⟩, (findOneAndUpdateRec [rLowSample] 1 11 rBodySample 0).2))
    ∧ ((∀ x ∈ [rBadSample], validMatched [rLowSample] x = false)
      ∧ saveAIRecommendations [rBadSample] 0 [rLowSample] = (⟨true, some 0⟩, [rLowSample])) :=
  ⟨⟨rfl, rfl, rfl, by decide,
    claim_C10_save_recommendations.1 0 [rLowSample] [] [] rGoodSample 1 11 rBodySample
      (by simp) rfl rfl rfl (by decide)⟩,
   ⟨by decide, claim_C10_save_recommendations.2 0 [rLowSample] [rBadSample] (by decide)⟩⟩

theorem filter_gt_of_le (D : List ExtProduct) (s s2 : Nat) (hss : s ≤ s2) :
    (D.filter (fun p => s < p.id)).filter (fun p => s2 < p.id)
      = D.filter (fun p => s2 < p.id) := by
  rw [List.filter_filter]
  refine List.filter_congr fun p _ => ?_
  by_cases h2 : s2 < p.id
  · have h1 : s < p.id := lt_of_le_of_lt hss h2
    simp [h1, h2]
  · simp [h2]

theorem fetchAll_some_eq : ∀ (fuel : Nat) (D : List ExtProduct) (s : Nat),
    D.Pairwise (fun a b => a.id < b.id) →
    fetchAll D (some s) fuel = fetchAll (D.filter (fun p => s < p.id)) none fuel := by
  intro fuel
  induction fuel with
  | zero => intro D s _; rfl
  | succ fuel ih =>
    intro D s hs
    simp only [fetchAll, fetchPage]
    by_cases hfull : ((D.filter (fun p => s < p.id)).take pageSize).length = pageSize
    · rw [if_pos hfull, if_pos hfull]
      cases hlast : ((D.filter (fun p => s < p.id)).take pageSize).getLast? with
      | none => rfl
      | some last =>
        have hmem : last ∈ D.filter (fun p => s < p.id) :=
          List.take_subset _ _ (List.mem_of_getLast?_eq_some hlast)
        have hslt : s < last.id := by
          have := List.of_mem_filter hmem
          simpa using this
        simp only [ih D last.id hs, ih (D.filter (fun p => s < p.id)) last.id (hs.filter _),
          filter_gt_of_le D s last.id (le_of_lt hslt)]
    · rw [if_neg hfull, if_neg hfull]

theorem filter_gt_elem_drop : ∀ (D : List ExtProduct),
    D.Pairwise (fun a b => a.id < b.id) →
    ∀ (k : Nat) (hk : k < D.length),
      D.filter (fun p => (D.get ⟨k, hk⟩).id < p.id) = D.drop (k + 1) := by
  intro D
  induction D with
  | nil => intro _ k hk; simp at hk
  | cons a t ih =>
    intro hs k hk
    obtain ⟨ha, ht⟩ := List.pairwise_cons.mp hs
    cases k with
    | zero =>
      simp only [List.get_eq_getElem, List.getElem_cons_zero]
      rw [List.filter_cons, if_neg (by simp)]
      simp only [List.drop_succ_cons, List.drop_zero]
      exact List.filter_eq_self.mpr fun b hb => by simpa using ha b hb
    | succ j =>
      have hjk : j < t.length := by simp at hk; omega
      simp only [List.get_eq_getElem, List.getElem_cons_succ]
      have hmem : t[j] ∈ t := List.getElem_mem hjk
      have haj : a.id < (t[j]).id := ha _ hmem
      rw [List.filter_cons, if_neg (by simpa using lt_asymm haj)]
      rw [List.drop_succ_cons]
      exact ih ht j hjk

theorem fetchAll_sorted : ∀ (fuel : Nat) (D : List ExtProduct),
    D.Pairwise (fun a b => a.id < b.id) →
    D.length / pageSize + 1 ≤ fuel →
    fetchAll D none fuel = (D.length / pageSize + 1, D) := by
  intro fuel
  induction fuel with
  | zero => intro D _ hf; exact absurd hf (Nat.not_succ_le_zero _)
  | succ f ih =>
    intro D hs hfuel
    simp only [fetchAll, fetchPage]
    by_cases hsmall : D.length < pageSize
    · have htake : D.take pageSize = D := List.take_of_length_le (le_of_lt hsmall)
      rw [htake, if_neg (ne_of_lt hsmall)]
      have h0 : D.length / pageSize = 0 := Nat.div_eq_of_lt hsmall
      rw [h0]
    · push_neg at hsmall
      have hps : 0 < pageSize := by norm_num [pageSize]
      have hlt : pageSize - 1 < D.length := by omega
      have htklen : (D.take pageSize).length = pageSize := by
        rw [List.length_take]
        omega
      rw [if_pos htklen]
      have hplast : (D.take pageSize).getLast? = some (D.get ⟨pageSize - 1, hlt⟩) := by
        rw [List.getLast?_eq_getElem?, htklen,
          List.getElem?_take_of_lt (by omega : pageSize - 1 < pageSize)]
        simp [List.getElem?_eq_getElem hlt]
      simp only [hplast]
      rw [fetchAll_some_eq f D (D.get ⟨pageSize - 1, hlt⟩).id hs,
        filter_gt_elem_drop D hs (pageSize - 1) hlt]
      have hsub1 : pageSize - 1 + 1 = pageSize := by omega
      rw [hsub1]
      have hdlen : (D.drop pageSize).length = D.length - pageSize := by simp
      have hdiv : D.length / pageSize = (D.length - pageSize) / pageSize + 1 :=
        Nat.div_eq_sub_div hps hsmall
      have hrec := ih (D.drop pageSize)
        (List.Pairwise.sublist (List.drop_sublist _ _) hs) (by rw [hdlen]; omega)
      rw [hrec, hdlen, List.take_append_drop]
      rw [hdiv]

theorem normalizeProduct_ok (p : ExtProduct) (now : ℚ) (h : p.tags.isSome = true) :
    normalizeProduct p now = .ok (normDoc p now) := by
  rcases p with ⟨i, t, b, vnd, pt, tags, vs⟩
  cases tags with
  | none => simp at h
  | some ts => rfl

theorem processProducts_ok (now : ℚ) : ∀ (l : List ExtProduct) (db : DB),
    (∀ p ∈ l, p.tags.isSome = true) →
    processProducts now l db = (l.length, applyAll now l db, none) := by
  intro l
  induction l with
  | nil => intro db _; rfl
  | cons p rest ih =>
    intro db hall
    have hp := hall p (by simp)
    simp only [processProducts, normalizeProduct_ok p now hp,
      ih (applyDoc now (normDoc p now) db) (fun q hq => hall q (List.mem_cons_of_mem _ hq))]
    simp [applyAll, applyOk]

theorem processProducts_error (now : ℚ) :
    ∀ (good : List ExtProduct) (bad : ExtProduct) (rest : List ExtProduct) (db : DB),
      (∀ p ∈ good, p.tags.isSome = true) → bad.tags = none →
      processProducts now (good ++ bad :: rest) db =
        (good.length, applyAll now good db, some "TypeError: tags is null") := by
  intro good
  induction good with
  | nil =>
    intro bad rest db _ hbad
    have hb : normalizeProduct bad now = .error "TypeError: tags is null" := by
      unfold normalizeProduct
      rw [hbad]
    simp only [List.nil_append, processProducts, hb]
    rfl
  | cons p good ih =>
    intro bad rest db hall hbad
    have hp := hall p (by simp)
    simp only [List.cons_append, List.append_eq, processProducts,
      normalizeProduct_ok p now hp,
      ih bad rest (applyDoc now (normDoc p now) db)
        (fun q hq => hall q (List.mem_cons_of_mem _ hq)) hbad]
    simp [applyAll, applyOk]

theorem syncProducts_char (dataset : List ExtProduct) (now : ℚ) (db : DB)
    (hs : dataset.Pairwise (fun a b => a.id < b.id))
    (hwf : ∀ p ∈ dataset, p.tags.isSome = true) :
    syncProducts dataset now db =
      ⟨dataset.length / pageSize + 1, dataset.length, .ok dataset.length,
        applyAll now dataset db⟩ := by
  have hfb : dataset.length / pageSize + 1 ≤ dataset.length + 1 := by
    have := Nat.div_le_self dataset.length pageSize
    omega
  unfold syncProducts
  simp only [fetchAll_sorted (dataset.length + 1) dataset hs hfb,
    processProducts_ok now dataset db hwf]

theorem applyVariants_products (doc : ProductDoc) (now : ℚ) :
    ∀ (vs : List VariantDoc) (db : DB),
      (applyVariants doc now vs db).products = db.products := by
  intro vs
  induction vs with
  | nil => intro db; rfl
  | cons v vs ih =>
    intro db
    simp only [applyVariants]
    rw [ih]
    rfl

theorem applyVariants_analytics_skip (doc : ProductDoc) (now : ℚ) :
    ∀ (vs : List VariantDoc) (db : DB) (k : Nat × Nat),
      (∀ v ∈ vs, k ≠ (doc.shopifyId, v.shopifyVariantId)) →
      (applyVariants doc now vs db).analytics k = db.analytics k := by
  intro vs
  induction vs with
  | nil => intro db k _; rfl
  | cons v vs ih =>
    intro db k hk
    simp only [applyVariants]
    rw [ih _ k (fun w hw => hk w (List.mem_cons_of_mem _ hw))]
    have hne : k ≠ (doc.shopifyId, v.shopifyVariantId) := hk v (by simp)
    simp [setAnalytics, hne]

theorem applyVariants_analytics_mem (doc : ProductDoc) (now : ℚ) :
    ∀ (vs : List VariantDoc) (db : DB) (v : VariantDoc), v ∈ vs →
      (vs.map (fun w => w.shopifyVariantId)).Nodup →
      (applyVariants doc now vs db).analytics (doc.shopifyId, v.shopifyVariantId) =
        some (updateAnalyticsDoc doc v now
          (db.analytics (doc.shopifyId, v.shopifyVariantId))) := by
  intro vs
  induction vs with
  | nil => intro db v hv _; exact absurd hv (List.not_mem_nil _)
  | cons w vs ih =>
    intro db v hv hnd
    rw [List.map_cons, List.nodup_cons] at hnd
    obtain ⟨hwnot, hnd2⟩ := hnd
    simp only [applyVariants]
    rcases List.mem_cons.mp hv with rfl | hv2
    · rw [applyVariants_analytics_skip doc now vs _ _ ?hskip]
      · simp [setAnalytics]
      case hskip =>
        intro u hu heq
        rw [Prod.mk.injEq] at heq
        exact hwnot (heq.2 ▸ List.mem_map_of_mem _ hu)
    · have hvw : v.shopifyVariantId ≠ w.shopifyVariantId := by
        intro h
        exact hwnot (h ▸ List.mem_map_of_mem _ hv2)
      have h2 : (setAnalytics db (doc.shopifyId, w.shopifyVariantId)
            (updateAnalyticsDoc doc w now
              (db.analytics (doc.shopifyId, w.shopifyVariantId)))).analytics
            (doc.shopifyId, v.shopifyVariantId)
          = db.analytics (doc.shopifyId, v.shopifyVariantId) := by
        simp [setAnalytics, hvw]
      rw [ih _ v hv2 hnd2, h2]

theorem applyDoc_products (now : ℚ) (doc : ProductDoc) (db : DB) (pid : Nat) :
    (applyDoc now doc db).products pid =
      if pid = doc.shopifyId then some doc else db.products pid := by
  unfold applyDoc
  rw [applyVariants_products]
  rfl

theorem applyDoc_analytics_ne (now : ℚ) (doc : ProductDoc) (db : DB) (k : Nat × Nat)
    (hk : k.1 ≠ doc.shopifyId) :
    (applyDoc now doc db).analytics k = db.analytics k := by
  unfold applyDoc
  rw [applyVariants_analytics_skip doc now _ _ _ ?h]
  · rfl
  case h =>
    intro v hv heq
    exact hk (by rw [heq])

theorem applyDoc_analytics_mem (now : ℚ) (doc : ProductDoc) (db : DB) (v : VariantDoc)
    (hv : v ∈ doc.variants)
    (hnd : (doc.variants.map (fun w => w.shopifyVariantId)).Nodup) :
    (applyDoc now doc db).analytics (doc.shopifyId, v.shopifyVariantId) =
      some (updateAnalyticsDoc doc v now
        (db.analytics (doc.shopifyId, v.shopifyVariantId))) := by
  unfold applyDoc
  rw [applyVariants_analytics_mem doc now doc.variants _ v hv hnd]
  rfl

theorem applyAll_products_notmem (now : ℚ) :
    ∀ (l : List ExtProduct) (db : DB) (pid : Nat),
      pid ∉ l.map (fun p => p.id) →
      (applyAll now l db).products pid = db.products pid := by
  intro l
  induction l with
  | nil => intro db pid _; rfl
  | cons p l ih =>
    intro db pid hpid
    rw [List.map_cons, List.mem_cons] at hpid
    push_neg at hpid
    rw [show applyAll now (p :: l) db = applyAll now l (applyOk now db p) from rfl]
    rw [ih (applyOk now db p) pid hpid.2]
    unfold applyOk
    rw [applyDoc_products]
    exact if_neg hpid.1

theorem applyAll_products_mem (now : ℚ) :
    ∀ (l : List ExtProduct) (db : DB) (p : ExtProduct), p ∈ l →
      (l.map (fun q => q.id)).Nodup →
      (applyAll now l db).products p.id = some (normDoc p now) := by
  intro l
  induction l with
  | nil => intro db p hp _; exact absurd hp (List.not_mem_nil _)
  | cons q l ih =>
    intro db p hp hnd
    rw [List.map_cons, List.nodup_cons] at hnd
    obtain ⟨hqnot, hnd2⟩ := hnd
    rw [show applyAll now (q :: l) db = applyAll now l (applyOk now db q) from rfl]
    rcases List.mem_cons.mp hp with rfl | hp2
    · rw [applyAll_products_notmem now l _ p.id hqnot]
      unfold applyOk
      rw [applyDoc_products]
      exact if_pos rfl
    · exact ih _ p hp2 hnd2

theorem applyAll_analytics_skip (now : ℚ) :
    ∀ (l : List ExtProduct) (db : DB) (k : Nat × Nat),
      k.1 ∉ l.map (fun p => p.id) →
      (applyAll now l db).analytics k = db.analytics k := by
  intro l
  induction l with
  | nil => intro db k _; rfl
  | cons q l ih =>
    intro db k hk
    rw [List.map_cons, List.mem_cons] at hk
    push_neg at hk
    rw [show applyAll now (q :: l) db = applyAll now l (applyOk now db q) from rfl]
    rw [ih (applyOk now db q) k hk.2]
    unfold applyOk
    exact applyDoc_analytics_ne now _ db k hk.1

theorem applyAll_analytics_mem (now : ℚ) :
    ∀ (l : List ExtProduct) (db : DB) (p : ExtProduct) (v : ExtVariant),
      p ∈ l → (l.map (fun q => q.id)).Nodup →
      v ∈ p.variants →
      (p.variants.map (fun w => w.id)).Nodup →
      (applyAll now l db).analytics (p.id, v.id) =
        some (updateAnalyticsDoc (normDoc p now) (normVariant v) now
          (db.analytics (p.id, v.id))) := by
  intro l
  induction l with
  | nil => intro db p v hp _ _ _; exact absurd hp (List.not_mem_nil _)
  | cons q l ih =>
    intro db p v hp hnd hv hvnd
    rw [List.map_cons, List.nodup_cons] at hnd
    obtain ⟨hqnot, hnd2⟩ := hnd
    rw [show applyAll now (q :: l) db = applyAll now l (applyOk now db q) from rfl]
    rcases List.mem_cons.mp hp with rfl | hp2
    · rw [applyAll_analytics_skip now l _ (p.id, v.id) hqnot]
      unfold applyOk
      have hv2 : normVariant v ∈ (normDoc p now).variants :=
        List.mem_map_of_mem _ hv
      have hnd3 : ((normDoc p now).variants.map (fun w => w.shopifyVariantId)).Nodup := by
        show ((p.variants.map normVariant).map (fun w => w.shopifyVariantId)).Nodup
        rw [List.map_map]
        exact hvnd
      exact applyDoc_analytics_mem now (normDoc p now) db (normVariant v) hv2 hnd3
    · have hpq : p.id ≠ q.id := by
        intro h
        exact hqnot (h ▸ List.mem_map_of_mem _ hp2)
      have hkeep : (applyOk now db q).analytics (p.id, v.id) = db.analytics (p.id, v.id) := by
        unfold applyOk
        exact applyDoc_analytics_ne now _ db _ hpq
      rw [ih _ p v hp2 hnd2 hv hvnd, hkeep]

theorem updateAnalyticsDoc_hist (doc : ProductDoc) (v : VariantDoc) (now : ℚ)
    (old : Option AnalyticsRecord) :
    (updateAnalyticsDoc doc v now old).historicalQuantities =
      (match old with
       | some a => a.historicalQuantities
       | none => []) ++ [⟨now, (v.inventoryQuantity : ℚ)⟩] := by
  cases old with
  | some a => rfl
  | none => rfl

theorem syncProducts_db (dataset : List ExtProduct) (now : ℚ) (db : DB)
    (hs : dataset.Pairwise (fun a b => a.id < b.id))
    (hwf : ∀ p ∈ dataset, p.tags.isSome = true) :
    (syncProducts dataset now db).db = applyAll now dataset db := by
  rw [syncProducts_char dataset now db hs hwf]

/-- C2 counterexample: on a dataset of exactly 250 records (one full page)
the loop issues a second, empty page request, so 2 requests are made while
ceil(250/250) computed as (250 + 250 - 1) / 250 is 1. -/
theorem claim_C2_counterexample :
    (syncProducts dataset250 0 emptyDB).requests = 2
    ∧ (dataset250.length + pageSize - 1) / pageSize = 1 := by
  have hs : dataset250.Pairwise (fun a b => a.id < b.id) := by
    unfold dataset250
    rw [List.pairwise_map]
    simpa [mkExt] using List.pairwise_lt_range 250
  have hwf : ∀ p ∈ dataset250, p.tags.isSome = true := by
    intro p hp
    unfold dataset250 at hp
    obtain ⟨i, _, rfl⟩ := List.mem_map.mp hp
    rfl
  have hlen : dataset250.length = 250 := by simp [dataset250]
  constructor
  · rw [syncProducts_char dataset250 0 emptyDB hs hwf]
    simp [hlen, pageSize]
  · rw [hlen]
    norm_num [pageSize]

/-- C2 amended: against an external dataset of N records with strictly
ascending ids and page size 250, one syncProducts call issues
floor(N/250) + 1 page requests (one more than ceil(N/250) when 250 divides N,
the trailing short-page probe), upserts exactly N records, and returns N. -/
theorem claim_C2_amended_pagination :
    ∀ (dataset : List ExtProduct) (now : ℚ) (db : DB),
      dataset.Pairwise (fun a b => a.id < b.id) →
      (∀ p ∈ dataset, p.tags.isSome = true) →
      (syncProducts dataset now db).requests = dataset.length / pageSize + 1
      ∧ (syncProducts dataset now db).upserts = dataset.length
      ∧ (syncProducts dataset now db).result = .ok dataset.length := by
  intro dataset now db hs hwf
  rw [syncProducts_char dataset now db hs hwf]
  exact ⟨rfl, rfl, rfl⟩

/-- Witness for C2: the one-product dataset takes one page request and
upserts one record. -/
theorem claim_C2_witness :
    (dataset1.Pairwise (fun a b => a.id < b.id)
      ∧ ∀ p ∈ dataset1, p.tags.isSome = true)
    ∧ (syncProducts dataset1 0 emptyDB).requests = dataset1.length / pageSize + 1
    ∧ (syncProducts dataset1 0 emptyDB).upserts = dataset1.length
    ∧ (syncProducts dataset1 0 emptyDB).result = .ok dataset1.length :=
  ⟨⟨by decide, by decide⟩,
    claim_C2_amended_pagination dataset1 0 emptyDB (by decide) (by decide)⟩

/-- C5 counterexample: on a 50-record page whose 26th record is malformed,
the sync call aborts: the result is the thrown error and only the 25 records
before the malformed one were upserted, not 49. -/
theorem claim_C5_counterexample :
    page50.length = 50
    ∧ (syncProducts page50 0 emptyDB).result = .error "TypeError: tags is null"
    ∧ (syncProducts page50 0 emptyDB).upserts = 25 := by
  have hs : page50.Pairwise (fun a b => a.id < b.id) := by decide
  have hlen : page50.length = 50 := by decide
  have hfuel : page50.length / pageSize + 1 ≤ page50.length + 1 := by
    have := Nat.div_le_self page50.length pageSize
    omega
  have hfetch := fetchAll_sorted (page50.length + 1) page50 hs hfuel
  have hgood : ∀ p ∈ good25, p.tags.isSome = true := by decide
  have hproc50 : processProducts 0 page50 emptyDB =
      (good25.length, applyAll 0 good25 emptyDB, some "TypeError: tags is null") :=
    processProducts_error 0 good25 bad25 tail24 emptyDB hgood rfl
  refine ⟨hlen, ?_, ?_⟩
  · unfold syncProducts
    simp only [hfetch, hproc50]
  · unfold syncProducts
    simp only [hfetch, hproc50]
    decide

/-- C5 amended: a failure upserting one record aborts the whole sync call
instead of being skipped: the records before the malformed one are upserted,
the loop stops there, and the call reports the thrown error; a 50-record page
with one malformed record at position k yields k upserts and a call-level
error, never a logged skip with the remaining records processed. -/
theorem claim_C5_amended_abort :
    (∀ (now : ℚ) (db : DB) (good : List ExtProduct) (bad : ExtProduct)
        (rest : List ExtProduct),
      (∀ p ∈ good, p.tags.isSome = true) → bad.tags = none →
      processProducts now (good ++ bad :: rest) db =
        (good.length, applyAll now good db, some "TypeError: tags is null"))
    ∧ (∀ (now : ℚ) (db : DB) (good : List ExtProduct) (bad : ExtProduct)
        (rest : List ExtProduct),
      (good ++ bad :: rest).Pairwise (fun a b => a.id < b.id) →
      (∀ p ∈ good, p.tags.isSome = true) → bad.tags = none →
      (syncProducts (good ++ bad :: rest) now db).result
          = .error "TypeError: tags is null"
      ∧ (syncProducts (good ++ bad :: rest) now db).upserts = good.length) := by
  refine ⟨fun now db good bad rest h1 h2 => processProducts_error now good bad rest db h1 h2,
    ?_⟩
  intro now db good bad rest hs hgood hbad
  have hfuel : (good ++ bad :: rest).length / pageSize + 1
      ≤ (good ++ bad :: rest).length + 1 := by
    have := Nat.div_le_self (good ++ bad :: rest).length pageSize
    omega
  have hfetch := fetchAll_sorted ((good ++ bad :: rest).length + 1)
    (good ++ bad :: rest) hs hfuel
  have hproc := processProducts_error now good bad rest db hgood hbad
  constructor <;>
  · unfold syncProducts
    simp only [hfetch, hproc]

/-- Witness for C5: the concrete 50-record page with the malformed record at
index 25 aborts after 25 upserts. -/
theorem claim_C5_witness :
    ((∀ p ∈ good25, p.tags.isSome = true) ∧ bad25.tags = none
      ∧ (good25 ++ bad25 :: tail24).Pairwise (fun a b => a.id < b.id))
    ∧ processProducts 0 (good25 ++ bad25 :: tail24) emptyDB =
        (good25.length, applyAll 0 good25 emptyDB, some "TypeError: tags is null")
    ∧ (syncProducts (good25 ++ bad25 :: tail24) 0 emptyDB).result
        = .error "TypeError: tags is null"
    ∧ (syncProducts (good25 ++ bad25 :: tail24) 0 emptyDB).upserts = good25.length :=
  ⟨⟨by decide, rfl, by decide⟩,
    claim_C5_amended_abort.1 0 emptyDB good25 bad25 tail24 (by decide) rfl,
    (claim_C5_amended_abort.2 0 emptyDB good25 bad25 tail24 (by decide) (by decide) rfl).1,
    (claim_C5_amended_abort.2 0 emptyDB good25 bad25 tail24 (by decide) (by decide) rfl).2⟩

/-- C4 counterexample: running syncProducts twice over the unchanged
one-product dataset at times 0 and 1 does not reproduce the same Product
document: its lastUpdated timestamp is rewritten by the second run. -/
theorem claim_C4_counterexample :
    (syncProducts dataset1 1 (syncProducts dataset1 0 emptyDB).db).db.products prodSample.id
      ≠ (syncProducts dataset1 0 emptyDB).db.products prodSample.id := by
  have hs : dataset1.Pairwise (fun a b => a.id < b.id) := by decide
  have hwf : ∀ p ∈ dataset1, p.tags.isSome = true := by decide
  have hnd : (dataset1.map (fun p => p.id)).Nodup := by decide
  have hp : prodSample ∈ dataset1 := by decide
  have hdb1 := syncProducts_db dataset1 0 emptyDB hs hwf
  have hdb2 := syncProducts_db dataset1 1 (applyAll 0 dataset1 emptyDB) hs hwf
  rw [hdb1, hdb2]
  rw [applyAll_products_mem 1 dataset1 _ prodSample hp hnd,
    applyAll_products_mem 0 dataset1 emptyDB prodSample hp hnd]
  intro h
  have h3 := Option.some.inj h
  have h4 := congrArg ProductDoc.lastUpdated h3
  norm_num [normDoc] at h4

/-- C4 amended: over an unchanged well-formed external dataset, a second
syncProducts run reproduces every Product document up to the lastUpdated
timestamp (all dataset-derived fields equal), and appends exactly one new
{date, quantity} observation to every synced variant's history — also when
the two runs carry the same timestamp, since appends are never deduplicated. -/
theorem claim_C4_amended_idempotence :
    ∀ (dataset : List ExtProduct) (t1 t2 : ℚ) (db : DB),
      dataset.Pairwise (fun a b => a.id < b.id) →
      (∀ p ∈ dataset, p.tags.isSome = true) →
      (∀ p ∈ dataset, (p.variants.map (fun w => w.id)).Nodup) →
      syncTwiceProperty dataset t1 t2 db := by
  intro dataset t1 t2 db hs hwf hvnd
  have hnd : (dataset.map (fun p => p.id)).Nodup :=
    List.pairwise_map.mpr (hs.imp fun h => ne_of_lt h)
  have hdb1 := syncProducts_db dataset t1 db hs hwf
  have hdb2 := syncProducts_db dataset t2 (applyAll t1 dataset db) hs hwf
  unfold syncTwiceProperty
  rw [hdb1, hdb2]
  constructor
  · intro pid
    by_cases hin : pid ∈ dataset.map (fun p => p.id)
    · obtain ⟨p, hp, rfl⟩ := List.mem_map.mp hin
      rw [applyAll_products_mem t2 dataset _ p hp hnd,
        applyAll_products_mem t1 dataset db p hp hnd]
      rfl
    · rw [applyAll_products_notmem t2 dataset _ _ hin,
        applyAll_products_notmem t1 dataset db _ hin]
  · intro p hp v hv
    have hvnd2 := hvnd p hp
    refine ⟨_, applyAll_analytics_mem t1 dataset db p v hp hnd hv hvnd2, _,
      applyAll_analytics_mem t2 dataset _ p v hp hnd hv hvnd2, ?_, ?_⟩
    · rw [updateAnalyticsDoc_hist,
        applyAll_analytics_mem t1 dataset db p v hp hnd hv hvnd2]
      rfl
    · rw [updateAnalyticsDoc_hist,
        applyAll_analytics_mem t1 dataset db p v hp hnd hv hvnd2]
      simp

/-- Witness for C4: the one-product dataset run twice with the same
timestamp, from the empty repository. -/
theorem claim_C4_witness :
    (dataset1.Pairwise (fun a b => a.id < b.id)
      ∧ (∀ p ∈ dataset1, p.tags.isSome = true)
      ∧ (∀ p ∈ dataset1, (p.variants.map (fun w => w.id)).Nodup))
    ∧ syncTwiceProperty dataset1 0 0 emptyDB :=
  ⟨⟨by decide, by decide, by decide⟩,
    claim_C4_amended_idempotence dataset1 0 0 emptyDB (by decide) (by decide) (by decide)⟩
